import Mathlib

/-!
Verification development for the `deno_lockfile` crate.

The Rust source under verification is `src/lockfile.rs`.  Sibling modules of
the crate (`workspace_config.rs`, `graphs.rs`, `printer.rs`, `transforms.rs`
and the error display code) are not part of the provided sources; wherever a
definition embeds one of those, its doc comment starts with
`Modelled from the spec:` and follows the specification's wording.

Rust's `BTreeMap<String, α>` is embedded as an association list whose keys are
kept in strictly increasing order by construction (insertions are sorted
in-place replacements), so list equality coincides with map equality on
canonically built values.  `BTreeSet<String>` is embedded likewise as a sorted
duplicate-free list.  Byte indices in Rust string slicing are modelled as
character indices, which agrees with the source on ASCII data (package ids,
requirement strings and versions in lockfiles are ASCII).
-/

/-- Lookup in an association-list map (first occurrence wins, matching
`BTreeMap::get` on duplicate-free lists). -/
def lookupKey {α : Type} : List (String × α) → String → Option α
  | [], _ => none
  | kv :: rest, k => if kv.1 = k then some kv.2 else lookupKey rest k

/-- Sorted insert-or-replace, matching `BTreeMap::insert`. -/
def insertKey {α : Type} : List (String × α) → String → α → List (String × α)
  | [], k, v => [(k, v)]
  | kv :: rest, k, v =>
    if k = kv.1 then (k, v) :: rest
    else if k < kv.1 then (k, v) :: kv :: rest
    else kv :: insertKey rest k v

/-- Key removal, matching `BTreeMap::remove` (removes every occurrence; on
duplicate-free lists this is the single entry). -/
def removeKey {α : Type} : List (String × α) → String → List (String × α)
  | [], _ => []
  | kv :: rest, k => if kv.1 = k then removeKey rest k else kv :: removeKey rest k

/-- Sorted duplicate-free insert, matching `BTreeSet::insert`. -/
def insertSet : List String → String → List String
  | [], s => [s]
  | x :: rest, s =>
    if s = x then x :: rest
    else if s < x then s :: x :: rest
    else x :: insertSet rest s

/-- Insert only when the key is absent, matching
`HashMap::entry(..)` with the vacant-only insertion used by `from_json`. -/
def insertIfAbsent {α : Type} (m : List (String × α)) (k : String) (v : α) :
    List (String × α) :=
  match lookupKey m k with
  | some _ => m
  | none => insertKey m k v

/-- Embedding of `serde_json::Value`. -/
inductive Json where
  | str (s : String)
  | num (n : Int)
  | bool (b : Bool)
  | null
  | arr (elems : List Json)
  | obj (fields : List (String × Json))

/-- Embedding of `NpmPackageInfo` from `lockfile.rs`. -/
structure NpmPackageInfo where
  integrity : String
  dependencies : List (String × String)
deriving DecidableEq

/-- Embedding of `JsrPackageInfo` from `lockfile.rs`. -/
structure JsrPackageInfo where
  integrity : String
  dependencies : List String
deriving DecidableEq

/-- Modelled from the spec: `WorkspaceMemberConfig(Content)` lives in the
missing `workspace_config.rs`; per spec section 3 a member holds a set of
dependency requirements and a set of package-manager-file requirements. -/
structure WorkspaceMemberConfigContent where
  dependencies : List String
  package_json_deps : List String
deriving DecidableEq

/-- Modelled from the spec: `WorkspaceConfigContent` from the missing
`workspace_config.rs` — a root member plus a mapping from member name to
member config (spec section 3). -/
structure WorkspaceConfigContent where
  root : WorkspaceMemberConfigContent
  members : List (String × WorkspaceMemberConfigContent)
deriving DecidableEq

def WorkspaceMemberConfigContent.emptyMember : WorkspaceMemberConfigContent :=
  ⟨[], []⟩

def WorkspaceConfigContent.emptyConfig : WorkspaceConfigContent :=
  ⟨.emptyMember, []⟩

/-- Modelled from the spec: `WorkspaceMemberConfigContent::is_empty` from the
missing `workspace_config.rs` — no dependencies of either kind. -/
def WorkspaceMemberConfigContent.is_empty (m : WorkspaceMemberConfigContent) : Bool :=
  m.dependencies.isEmpty && m.package_json_deps.isEmpty

/-- Modelled from the spec: `WorkspaceConfigContent::is_empty` from the
missing `workspace_config.rs`. -/
def WorkspaceConfigContent.is_empty (w : WorkspaceConfigContent) : Bool :=
  w.root.is_empty && w.members.isEmpty

/-- Modelled from the spec: the aggregated requirement set of one member. -/
def WorkspaceMemberConfigContent.dep_reqs (m : WorkspaceMemberConfigContent) :
    List String :=
  m.dependencies ++ m.package_json_deps

/-- Modelled from the spec: `get_all_dep_reqs` from the missing
`workspace_config.rs` — every requirement declared by the root or any member
(spec section 4.4 aggregates them into a set; only membership is ever used,
so the concatenation is a faithful model). -/
def WorkspaceConfigContent.get_all_dep_reqs (w : WorkspaceConfigContent) :
    List String :=
  w.root.dep_reqs ++ w.members.foldr (fun kv acc => kv.2.dep_reqs ++ acc) []

/-- Embedding of `LockfileContent` from `lockfile.rs`. -/
structure LockfileContent where
  version : String
  specifiers : List (String × String)
  jsr : List (String × JsrPackageInfo)
  npm : List (String × NpmPackageInfo)
  redirects : List (String × String)
  remote : List (String × String)
  workspace : WorkspaceConfigContent
deriving DecidableEq

/-- Embedding of `LockfileContent::empty`. -/
def LockfileContent.empty : LockfileContent :=
  { version := "4", specifiers := [], jsr := [], npm := [], redirects := [],
    remote := [], workspace := .emptyConfig }

/-- Embedding of `LockfileContent::is_empty`. -/
def LockfileContent.is_empty (c : LockfileContent) : Bool :=
  c.jsr.isEmpty && c.npm.isEmpty && c.specifiers.isEmpty && c.redirects.isEmpty
    && c.remote.isEmpty && c.workspace.is_empty

/-- Embedding of `DeserializationError` from the crate's error module; constructors per the
source's uses in `from_json` (the `todo!()` reached for a jsr dependency with
no entry in the specifier table is modelled by `UnmappedJsrDependency`; the
spec calls that case "an unrecoverable shape error"). -/
inductive DeserializationError where
  | FailedDeserializing (key : String)
  | InvalidNpmPackageId (id : String)
  | MissingPackage (dep : String)
  | InvalidNpmPackageDependency (dep : String)
  | InvalidPackageSpecifier (s : String)
  | UnmappedJsrDependency (dep : String)
deriving DecidableEq

/-- Embedding of `extract_nv_from_id` from `from_json`: split `name@version` at the first
`@` after position 0. -/
def extract_nv_from_id (value : String) : Option (String × String) :=
  match value.toList with
  | [] => none
  | _ :: rest =>
    match rest.findIdx? (fun c => c = '@') with
    | none => none
    | some i =>
      let at_index := i + 1
      some (String.mk (value.toList.take at_index),
            String.mk (value.toList.drop (at_index + 1)))

/-- Embedding of `split_pkg_req` from `from_json`: split a requirement such as
`jsr:@scope/name@req` at the first `@` after the 5-character prefix. -/
def split_pkg_req (value : String) : Option (String × Option String) :=
  if value.length < 5 then none
  else
    match (value.toList.drop 5).findIdx? (fun c => c = '@') with
    | none => some (value, none)
    | some i =>
      let at_index := i + 5
      some (String.mk (value.toList.take at_index),
            some (String.mk (value.toList.drop (at_index + 1))))

/-- Embedding of `str::starts_with`, computed on the character list (so that concrete
evaluation reduces in the kernel). -/
def strStartsWith (s pre : String) : Bool :=
  pre.toList.isPrefixOf s.toList

/-- Dropping a prefix of `n` characters, computed on the character list. -/
def strDrop (s : String) (n : Nat) : String :=
  String.mk (s.toList.drop n)

/-- Embedding of `str::trim(..).is_empty()`: every character is whitespace, computed on
the character list. -/
def isBlank (s : String) : Bool :=
  s.toList.all (fun c => c.isWhitespace)

/-- serde decoding of a JSON value as a string. -/
def decodeString : Json → Option String
  | .str s => some s
  | _ => none

/-- serde decoding of a JSON object as a `BTreeMap<String, String>`. -/
def decodeStrMap (j : Json) : Option (List (String × String)) :=
  match j with
  | .obj fields =>
    fields.foldlM (fun m kv => (decodeString kv.2).map (fun s => insertKey m kv.1 s)) []
  | _ => none

/-- serde decoding of a JSON array as a `Vec<String>` (order preserved). -/
def decodeStrList (j : Json) : Option (List String) :=
  match j with
  | .arr elems => elems.mapM decodeString
  | _ => none

/-- serde decoding of `RawNpmPackageInfo` / `RawJsrPackageInfo` from
`from_json`: a required `integrity` string plus a defaulted `dependencies`
string array, returned as a pair. -/
def decodeRawPkg (j : Json) : Option (String × List String) :=
  match j with
  | .obj fs => do
    let integrity ← (lookupKey fs "integrity").bind decodeString
    let deps ← match lookupKey fs "dependencies" with
      | none => some []
      | some dj => decodeStrList dj
    some (integrity, deps)
  | _ => none

/-- serde decoding of a `BTreeMap<String, Raw…PackageInfo>` section. -/
def decodeRawMap (j : Json) : Option (List (String × (String × List String))) :=
  match j with
  | .obj fields =>
    fields.foldlM (fun m kv => (decodeRawPkg kv.2).map (fun p => insertKey m kv.1 p)) []
  | _ => none

/-- serde decoding of a JSON array as a `BTreeSet<String>`. -/
def decodeStrSet (j : Json) : Option (List String) :=
  match j with
  | .arr elems => (elems.mapM decodeString).map (fun l => l.foldl insertSet [])
  | _ => none

/-- Modelled from the spec: serde shape of a workspace member in the missing
`workspace_config.rs` — `dependencies` plus a nested `packageJson`
object holding package-manager-file dependencies. -/
def decodeWorkspaceMember (j : Json) : Option WorkspaceMemberConfigContent :=
  match j with
  | .obj fs => do
    let deps ← match lookupKey fs "dependencies" with
      | none => some []
      | some dj => decodeStrSet dj
    let pj ← match lookupKey fs "packageJson" with
      | none => some []
      | some (.obj pfs) =>
        match lookupKey pfs "dependencies" with
        | none => some []
        | some dj => decodeStrSet dj
      | some _ => none
    some ⟨deps, pj⟩
  | _ => none

/-- Modelled from the spec: serde shape of `WorkspaceConfigContent` in the
missing `workspace_config.rs` — the root member flattened at top level plus a
`members` mapping. -/
def decodeWorkspace (j : Json) : Option WorkspaceConfigContent :=
  match j with
  | .obj fs => do
    let root ← decodeWorkspaceMember (.obj (removeKey fs "members"))
    let members ← match lookupKey fs "members" with
      | none => some []
      | some (.obj ms) =>
        ms.foldlM (fun acc kv => (decodeWorkspaceMember kv.2).map (insertKey acc kv.1)) []
      | some _ => none
    some ⟨root, members⟩
  | _ => none

/-- Embedding of `deserialize_section` from `from_json`: a missing section is the default,
a present section must decode or the whole parse fails.  The source removes
each section key from the map before reading the next one; since the consulted
keys are pairwise distinct, direct lookups on the original map are
equivalent. -/
def deserialize_section {α : Type} (fields : List (String × Json)) (key : String)
    (decode : Json → Option α) (dflt : α) : Except DeserializationError α :=
  match lookupKey fields key with
  | some v =>
    match decode v with
    | some a => .ok a
    | none => .error (.FailedDeserializing key)
  | none => .ok dflt

/-- First loop of the npm section of `from_json`: record, for every npm id,
the version seen for its name (later ids overwrite earlier ones, matching the
`HashMap::insert` calls); an unsplittable id aborts the parse. -/
def collect_npm_versions (raw_npm : List (String × (String × List String))) :
    Except DeserializationError (List (String × String)) :=
  raw_npm.foldlM (fun acc kv =>
    match extract_nv_from_id kv.1 with
    | some nv => .ok (insertKey acc nv.1 nv.2)
    | none => .error (.InvalidNpmPackageId kv.1)) []

/-- Dependency-resolution loop of the npm section of `from_json`: each raw
dependency is an explicit `name@version` id, a bare name resolved through the
sibling versions, or an alias `key@npm:pkgName@version`. -/
def build_npm_dependencies (version_by_dep_name : List (String × String))
    (deps : List String) : Except DeserializationError (List (String × String)) :=
  deps.foldlM (fun acc dep => do
    let lr ← match extract_nv_from_id dep with
      | some nv => Except.ok nv
      | none =>
        match lookupKey version_by_dep_name dep with
        | some version => Except.ok (dep, version)
        | none => Except.error (DeserializationError.MissingPackage dep)
    let kpv ← if strStartsWith lr.2 "npm:" then
        match extract_nv_from_id (strDrop lr.2 4) with
        | some pv => Except.ok (lr.1, pv.1, pv.2)
        | none => Except.error (DeserializationError.InvalidNpmPackageDependency dep)
      else Except.ok (lr.1, lr.1, lr.2)
    Except.ok (insertKey acc kpv.1 (kpv.2.1 ++ "@" ++ kpv.2.2))) []

/-- The npm section of `from_json`: empty input short-circuits, otherwise the
versions table is built and every entry's dependencies are resolved. -/
def parse_npm_section (raw_npm : List (String × (String × List String))) :
    Except DeserializationError (List (String × NpmPackageInfo)) :=
  if raw_npm.isEmpty then .ok []
  else do
    let version_by_dep_name ← collect_npm_versions raw_npm
    raw_npm.foldlM (fun acc kv => do
      let deps ← build_npm_dependencies version_by_dep_name kv.2.2
      Except.ok (insertKey acc kv.1 ⟨kv.2.1, deps⟩)) []

/-- The specifier table of the jsr section of `from_json`: every specifier
maps to "leave unchanged" (`none`), and additionally every bare name of a
specifier carrying a version requirement maps to the full specifier, first
registration winning. -/
def build_resolved_specifiers (specifiers : List (String × String)) :
    Except DeserializationError (List (String × Option String)) :=
  let base := specifiers.foldl (fun acc kv => insertKey acc kv.1 (none : Option String)) []
  specifiers.foldlM (fun acc kv =>
    match split_pkg_req kv.1 with
    | none => Except.error (DeserializationError.InvalidPackageSpecifier kv.1)
    | some nr =>
      match nr.2 with
      | some _ => Except.ok (insertIfAbsent acc nr.1 (some kv.1))
      | none => Except.ok acc) base

/-- The jsr section of `from_json`: each raw dependency string is looked up in
the specifier table; an absent entry hits the source's `todo!()`, modelled as
the `UnmappedJsrDependency` error. -/
def parse_jsr_section (specifiers : List (String × String))
    (raw_jsr : List (String × (String × List String))) :
    Except DeserializationError (List (String × JsrPackageInfo)) :=
  if raw_jsr.isEmpty then .ok []
  else do
    let resolved ← build_resolved_specifiers specifiers
    raw_jsr.foldlM (fun acc kv => do
      let deps ← kv.2.2.foldlM (fun ds dep =>
        match lookupKey resolved dep with
        | none => Except.error (DeserializationError.UnmappedJsrDependency dep)
        | some maybe => Except.ok (insertSet ds (maybe.getD dep))) []
      Except.ok (insertKey acc kv.1 ⟨kv.2.1, deps⟩)) []

/-- Embedding of `LockfileContent::from_json`.  A non-object input yields the empty
content; otherwise the sections are parsed in source order and the `version`
member is extracted, defaulting to `"3"` when absent or not a string. -/
def LockfileContent.from_json (json : Json) : Except DeserializationError LockfileContent :=
  match json with
  | .obj fields => do
    let specifiers ← deserialize_section fields "specifiers" decodeStrMap []
    let raw_npm ← deserialize_section fields "npm" decodeRawMap []
    let npm ← parse_npm_section raw_npm
    let raw_jsr ← deserialize_section fields "jsr" decodeRawMap []
    let jsr ← parse_jsr_section specifiers raw_jsr
    let redirects ← deserialize_section fields "redirects" decodeStrMap []
    let remote ← deserialize_section fields "remote" decodeStrMap []
    let workspace ← deserialize_section fields "workspace" decodeWorkspace .emptyConfig
    Except.ok
      { version :=
          match lookupKey fields "version" with
          | some (Json.str v) => v
          | _ => "3",
        specifiers, jsr, npm, redirects, remote, workspace }
  | _ => Except.ok LockfileContent.empty

/-- Quote a string for JSON output.  Escaping of special characters is part of
the external JSON printer, which spec section 1 puts out of scope. -/
def quoteStr (s : String) : String := "\"" ++ s ++ "\""

/-- Render a non-empty JSON object body with 2-space-indented lines. -/
def printObjLines (ind : String) (entries : List String) : String :=
  "\x7b\n" ++ String.intercalate ",\n" entries ++ "\n" ++ ind ++ "\x7d"

/-- Render a string-to-string map as a JSON object. -/
def printStrMap (ind : String) (m : List (String × String)) : String :=
  if m.isEmpty then "\x7b\x7d"
  else printObjLines ind
    (m.map (fun kv => ind ++ "  " ++ quoteStr kv.1 ++ ": " ++ quoteStr kv.2))

/-- Render a string list as a JSON array. -/
def printStrArr (ind : String) (l : List String) : String :=
  if l.isEmpty then "[]"
  else "[\n" ++ String.intercalate ",\n" (l.map (fun s => ind ++ "  " ++ quoteStr s))
    ++ "\n" ++ ind ++ "]"

/-- Modelled from the spec: rendering of one jsr entry by `print_v4_content`
from the missing `printer.rs`; the dependency set is omitted when empty. -/
def printJsrInfo (ind : String) (info : JsrPackageInfo) : String :=
  printObjLines ind
    ((ind ++ "  " ++ quoteStr "integrity" ++ ": " ++ quoteStr info.integrity) ::
      (if info.dependencies.isEmpty then []
       else [ind ++ "  " ++ quoteStr "dependencies" ++ ": "
              ++ printStrArr (ind ++ "  ") info.dependencies]))

/-- Modelled from the spec: rendering of one npm entry by `print_v4_content`
from the missing `printer.rs`. -/
def printNpmInfo (ind : String) (info : NpmPackageInfo) : String :=
  printObjLines ind
    [ind ++ "  " ++ quoteStr "integrity" ++ ": " ++ quoteStr info.integrity,
     ind ++ "  " ++ quoteStr "dependencies" ++ ": "
       ++ printStrMap (ind ++ "  ") info.dependencies]

/-- Modelled from the spec: rendering of one workspace member. -/
def printWorkspaceMember (ind : String) (m : WorkspaceMemberConfigContent) :
    List String :=
  (if m.dependencies.isEmpty then []
   else [ind ++ "  " ++ quoteStr "dependencies" ++ ": "
          ++ printStrArr (ind ++ "  ") m.dependencies]) ++
  (if m.package_json_deps.isEmpty then []
   else [ind ++ "  " ++ quoteStr "packageJson" ++ ": "
          ++ printObjLines (ind ++ "  ")
              [ind ++ "    " ++ quoteStr "dependencies" ++ ": "
                ++ printStrArr (ind ++ "    ") m.package_json_deps]])

/-- Modelled from the spec: rendering of the workspace section. -/
def printWorkspace (ind : String) (w : WorkspaceConfigContent) : String :=
  printObjLines ind
    (printWorkspaceMember ind w.root ++
      (if w.members.isEmpty then []
       else [ind ++ "  " ++ quoteStr "members" ++ ": "
              ++ printObjLines (ind ++ "  ")
                  (w.members.map (fun kv =>
                    ind ++ "    " ++ quoteStr kv.1 ++ ": "
                      ++ printObjLines (ind ++ "    ")
                          (printWorkspaceMember (ind ++ "    ") kv.2)))]))

/-- Modelled from the spec: `print_v4_content` from the missing `printer.rs`,
per the canonical-writer rules of spec sections 4.1 and 6 — sorted keys
(guaranteed here by sorted-insert map construction), 2-space indentation, a
trailing newline, `specifiers`/`jsr`/`npm`/`redirects`/`workspace` omitted
when empty, `remote` always present, `version` always written as `"4"`. -/
def LockfileContent.to_json (c : LockfileContent) : String :=
  let entries :=
    ["  " ++ quoteStr "version" ++ ": " ++ quoteStr "4"] ++
    (if c.specifiers.isEmpty then []
     else ["  " ++ quoteStr "specifiers" ++ ": " ++ printStrMap "  " c.specifiers]) ++
    (if c.jsr.isEmpty then []
     else ["  " ++ quoteStr "jsr" ++ ": " ++ printObjLines "  "
            (c.jsr.map (fun kv =>
              "    " ++ quoteStr kv.1 ++ ": " ++ printJsrInfo "    " kv.2))]) ++
    (if c.npm.isEmpty then []
     else ["  " ++ quoteStr "npm" ++ ": " ++ printObjLines "  "
            (c.npm.map (fun kv =>
              "    " ++ quoteStr kv.1 ++ ": " ++ printNpmInfo "    " kv.2))]) ++
    (if c.redirects.isEmpty then []
     else ["  " ++ quoteStr "redirects" ++ ": " ++ printStrMap "  " c.redirects]) ++
    ["  " ++ quoteStr "remote" ++ ": " ++ printStrMap "  " c.remote] ++
    (if c.workspace.is_empty then []
     else ["  " ++ quoteStr "workspace" ++ ": " ++ printWorkspace "  " c.workspace])
  printObjLines "" entries ++ "\n"

/-- Embedding of `LockfileErrorReason` from the crate's error module: the load-time error
taxonomy of spec section 7. -/
inductive LockfileErrorReason where
  | ParseError
  | DeserializationError (e : DeserializationError)
  | UnsupportedVersion (version : String)
  | Empty
deriving DecidableEq

/-- Embedding of `LockfileError`: a reason wrapped with the file path for display. -/
structure LockfileError where
  filename : String
  reason : LockfileErrorReason
deriving DecidableEq

/-- Modelled from the spec: the user-facing display of lockfile errors from
the missing error module.  The exact wording of the unsupported-version and
empty-input diagnostics is fixed by spec section 6 (and asserted verbatim by
the `future_version_unsupported` and `empty_lockfile_nicer_error` tests in
`lockfile.rs`); the remaining variants are not part of the claims. -/
def LockfileError.display (e : LockfileError) : String :=
  match e.reason with
  | .UnsupportedVersion v =>
    "Unsupported lockfile version '" ++ v
      ++ "'. Try upgrading Deno or recreating the lockfile at '"
      ++ e.filename ++ "'."
  | .Empty =>
    "Unable to read lockfile. Lockfile was empty at '" ++ e.filename ++ "'."
  | .ParseError =>
    "Unable to parse the lockfile at '" ++ e.filename ++ "'."
  | .DeserializationError _ =>
    "Unable to read lockfile at '" ++ e.filename ++ "'."

/-- Modelled from the spec: `transform1_to_2` from the missing
`transforms.rs` — wrap the bare URL/checksum map as the `remote` field of an
envelope object and introduce the `npm.specifiers`/`npm.packages` nesting
(spec section 4.2). -/
def transform1_to_2 (m : List (String × Json)) : List (String × Json) :=
  [("npm", Json.obj [("packages", Json.obj []), ("specifiers", Json.obj [])]),
   ("remote", Json.obj m)]

/-- Modelled from the spec: `transform2_to_3` from the missing
`transforms.rs` — merge npm's separate specifier/package subsections into a
single `packages.npm` + `packages.specifiers` shape (spec section 4.2);
specifier names and resolved ids gain the `npm:` scheme prefix, as witnessed
by the `read_version_2` test in `lockfile.rs`. -/
def transform2_to_3 (m : List (String × Json)) : List (String × Json) :=
  let npmSection :=
    match lookupKey m "npm" with
    | some (Json.obj n) => n
    | _ => []
  let rawSpecifiers :=
    match lookupKey npmSection "specifiers" with
    | some (Json.obj s) => s
    | _ => []
  let rawPackages :=
    match lookupKey npmSection "packages" with
    | some (Json.obj p) => p
    | _ => []
  let specifiers := rawSpecifiers.map (fun kv =>
    ("npm:" ++ kv.1,
     match kv.2 with
     | Json.str v => Json.str ("npm:" ++ v)
     | other => other))
  insertKey (removeKey m "npm") "packages"
    (Json.obj [("npm", Json.obj rawPackages), ("specifiers", Json.obj specifiers)])

/-- Modelled from the spec: `transform3_to_4` from the missing
`transforms.rs` — flatten the nested `packages.{specifiers,npm,jsr}` object
into top-level keys and tag the result as version 4 (spec section 4.2 makes
migration end in the canonical version-4 model, and the `read_version_1` /
`read_version_2` tests in `lockfile.rs` assert the migrated version is
`"4"`); a non-object `packages` member is a shape error. -/
def transform3_to_4 (m : List (String × Json)) :
    Except LockfileErrorReason (List (String × Json)) :=
  match lookupKey m "packages" with
  | some (Json.obj pkgs) =>
    .ok (("version", Json.str "4") ::
      (pkgs.filter (fun kv => kv.1 == "specifiers" || kv.1 == "npm" || kv.1 == "jsr")
        ++ removeKey (removeKey m "packages") "version"))
  | some _ => .error (.DeserializationError (.FailedDeserializing "packages"))
  | none => .ok (("version", Json.str "4") :: removeKey m "version")

/-- Embedding of `Lockfile` from `lockfile.rs`; the `PathBuf` filename is embedded as a
string. -/
structure Lockfile where
  overwrite : Bool
  has_content_changed : Bool
  content : LockfileContent
  filename : String
  original_content : Option String
deriving DecidableEq

/-- Embedding of `Lockfile::new_empty`. -/
def Lockfile.new_empty (filename : String) (overwrite : Bool) : Lockfile :=
  { overwrite, has_content_changed := false, content := .empty, filename,
    original_content := some "" }

/-- Embedding of `Lockfile::to_json`.  The source panics when the content's version is not
`"4"` at serialization time; the panic is modelled as `none`. -/
def Lockfile.to_json (lf : Lockfile) : Option String :=
  match lf.original_content with
  | some original =>
    if !lf.has_content_changed && !lf.overwrite then some original
    else if lf.content.version ≠ "4" then none
    else some lf.content.to_json
  | none =>
    if lf.content.version ≠ "4" then none
    else some lf.content.to_json

/-- Embedding of `Lockfile::resolve_write_bytes`: the returned bytes (as a string, UTF-8
being a bijection on the values involved) paired with the updated lockfile.
The `none` branch after a changed content propagates the `to_json` panic,
which is unreachable for lockfiles built through the public interface. -/
def Lockfile.resolve_write_bytes (lf : Lockfile) : Option String × Lockfile :=
  if !lf.has_content_changed && !lf.overwrite then (none, lf)
  else
    match lf.to_json with
    | none => (none, lf)
    | some json_string =>
      (some json_string,
       { lf with has_content_changed := false,
                 original_content := some json_string })

/-- Embedding of `Lockfile::insert_remote`: equality-gated upsert on the remote map. -/
def Lockfile.insert_remote (lf : Lockfile) (specifier hash : String) : Lockfile :=
  match lookupKey lf.content.remote specifier with
  | none =>
    { lf with
        content := { lf.content with remote := insertKey lf.content.remote specifier hash },
        has_content_changed := true }
  | some existing =>
    if existing = hash then lf
    else
      { lf with
          content := { lf.content with remote := insertKey lf.content.remote specifier hash },
          has_content_changed := true }

/-- Embedding of `NpmPackageDependencyLockfileInfo` from `lockfile.rs`. -/
structure NpmPackageDependencyLockfileInfo where
  name : String
  id : String
deriving DecidableEq

/-- Embedding of `NpmPackageLockfileInfo` from `lockfile.rs`. -/
structure NpmPackageLockfileInfo where
  serialized_id : String
  integrity : String
  dependencies : List NpmPackageDependencyLockfileInfo
deriving DecidableEq

/-- The `NpmPackageInfo` value `insert_npm_package` builds from its argument
(dependency list collected into a map). -/
def npmInfoOf (package_info : NpmPackageLockfileInfo) : NpmPackageInfo :=
  ⟨package_info.integrity,
   package_info.dependencies.foldl (fun m dep => insertKey m dep.name dep.id) []⟩

/-- Embedding of `Lockfile::insert_npm_package`: equality-gated upsert on the npm map. -/
def Lockfile.insert_npm_package (lf : Lockfile)
    (package_info : NpmPackageLockfileInfo) : Lockfile :=
  let info := npmInfoOf package_info
  match lookupKey lf.content.npm package_info.serialized_id with
  | none =>
    { lf with
        content := { lf.content with
          npm := insertKey lf.content.npm package_info.serialized_id info },
        has_content_changed := true }
  | some existing =>
    if existing = info then lf
    else
      { lf with
          content := { lf.content with
            npm := insertKey lf.content.npm package_info.serialized_id info },
          has_content_changed := true }

/-- Embedding of `Lockfile::insert_package_specifier`: equality-gated upsert on the
specifier map. -/
def Lockfile.insert_package_specifier (lf : Lockfile)
    (serialized_package_req serialized_package_id : String) : Lockfile :=
  match lookupKey lf.content.specifiers serialized_package_req with
  | none =>
    { lf with
        content := { lf.content with
          specifiers := insertKey lf.content.specifiers serialized_package_req
            serialized_package_id },
        has_content_changed := true }
  | some existing =>
    if existing = serialized_package_id then lf
    else
      { lf with
          content := { lf.content with
            specifiers := insertKey lf.content.specifiers serialized_package_req
              serialized_package_id },
          has_content_changed := true }

/-- Embedding of `Lockfile::insert_package` (jsr): a new key inserts an entry with empty
dependencies; an existing key replaces only a differing integrity. -/
def Lockfile.insert_package (lf : Lockfile) (name integrity : String) : Lockfile :=
  match lookupKey lf.content.jsr name with
  | none =>
    { lf with
        content := { lf.content with
          jsr := insertKey lf.content.jsr name ⟨integrity, []⟩ },
        has_content_changed := true }
  | some existing =>
    if existing.integrity ≠ integrity then
      { lf with
          content := { lf.content with
            jsr := insertKey lf.content.jsr name ⟨integrity, existing.dependencies⟩ },
          has_content_changed := true }
    else lf

/-- Embedding of `Lockfile::add_package_deps`: extend a jsr package's dependency set,
marking dirty only if the set grew. -/
def Lockfile.add_package_deps (lf : Lockfile) (name : String) (deps : List String) :
    Lockfile :=
  match lookupKey lf.content.jsr name with
  | none => lf
  | some pkg =>
    let newDeps := deps.foldl insertSet pkg.dependencies
    { lf with
        content := { lf.content with
          jsr := insertKey lf.content.jsr name ⟨pkg.integrity, newDeps⟩ },
        has_content_changed :=
          if pkg.dependencies.length ≠ newDeps.length then true
          else lf.has_content_changed }

/-- Embedding of `Lockfile::insert_redirect`: a `jsr:`-prefixed source is ignored,
otherwise an equality-gated upsert on the redirects map. -/
def Lockfile.insert_redirect (lf : Lockfile) (source target : String) : Lockfile :=
  if strStartsWith source "jsr:" then lf
  else
    match lookupKey lf.content.redirects source with
    | none =>
      { lf with
          content := { lf.content with
            redirects := insertKey lf.content.redirects source target },
          has_content_changed := true }
    | some existing =>
      if existing = target then lf
      else
        { lf with
            content := { lf.content with
              redirects := insertKey lf.content.redirects source target },
            has_content_changed := true }

/-- Embedding of `Lockfile::remove_redirect`: the removed target paired with the updated
lockfile. -/
def Lockfile.remove_redirect (lf : Lockfile) (source : String) :
    Option String × Lockfile :=
  match lookupKey lf.content.redirects source with
  | none => (none, lf)
  | some removed =>
    (some removed,
     { lf with
         content := { lf.content with
           redirects := removeKey lf.content.redirects source },
         has_content_changed := true })

/-- Modelled from the spec: the node sort of the package reference graph of
the missing `graphs.rs` — requirement strings, npm ids, jsr ids (spec
section 4.3). -/
inductive PkgNode where
  | req (s : String)
  | npmId (s : String)
  | jsrId (s : String)
deriving DecidableEq

/-- The three sections the package reference graph is built from. -/
structure GraphSections where
  npm : List (String × NpmPackageInfo)
  jsr : List (String × JsrPackageInfo)
  specifiers : List (String × String)
deriving DecidableEq

def toGraph (c : LockfileContent) : GraphSections :=
  ⟨c.npm, c.jsr, c.specifiers⟩

/-- Modelled from the spec: a specifier value `npm:id` / `jsr:id` points at
the corresponding package node (spec sections 3 and 4.3). -/
def resolveSpecTarget (v : String) : Option PkgNode :=
  if strStartsWith v "npm:" then some (.npmId (strDrop v 4))
  else if strStartsWith v "jsr:" then some (.jsrId (strDrop v 4))
  else none

/-- Modelled from the spec: the edges of the package reference graph (spec
section 4.3) — requirement → resolved id via `specifiers`, npm id → each
dependency npm id, jsr id → each dependency requirement string; dangling
references are silently ignored. -/
def succsOf (g : GraphSections) : PkgNode → List PkgNode
  | .req s =>
    match lookupKey g.specifiers s with
    | some v => (resolveSpecTarget v).toList
    | none => []
  | .npmId s =>
    match lookupKey g.npm s with
    | some info => info.dependencies.map (fun kv => PkgNode.npmId kv.2)
    | none => []
  | .jsrId s =>
    match lookupKey g.jsr s with
    | some info => info.dependencies.map PkgNode.req
    | none => []

/-- One parallel expansion round of the reachability traversal. -/
def stepClose (g : GraphSections) (s : List PkgNode) : List PkgNode :=
  (s ++ s.flatMap (succsOf g)).dedup

/-- Iterated expansion. -/
def closeN (g : GraphSections) : Nat → List PkgNode → List PkgNode
  | 0, s => s
  | n + 1, s => closeN g n (stepClose g s)

/-- Round budget for the traversal.  Every round before saturation adds at
least one node with successors, and any node with successors is a key of one
of the three maps or a root, so this budget exceeds the graph's
eccentricity and the result is the full reachable set. -/
def graphFuel (g : GraphSections) (roots : List String) : Nat :=
  g.npm.length + g.jsr.length + g.specifiers.length + roots.length + 1

/-- Modelled from the spec: the set of nodes transitively reachable from the
given requirement roots (spec section 4.3 step 3), as a fixpoint traversal. -/
def reachSet (g : GraphSections) (roots : List String) : List PkgNode :=
  closeN g (graphFuel g roots) (roots.map PkgNode.req)

/-- Requirements removed by a workspace change: old − new (spec
section 4.4). -/
def removed_deps_of (old_deps new_deps : List String) : List String :=
  old_deps.filter (fun d => decide (¬ d ∈ new_deps))

/-- Surviving root set: original roots − removed (spec section 4.3
step 2). -/
def surviving_deps_of (old_deps removed : List String) : List String :=
  old_deps.filter (fun d => decide (¬ d ∈ removed))

/-- Retention test for an npm entry: its node was reached. -/
def keepNpm (r : List PkgNode) (s : String) : Bool := decide (PkgNode.npmId s ∈ r)

/-- Retention test for a jsr entry: its node was reached. -/
def keepJsr (r : List PkgNode) (s : String) : Bool := decide (PkgNode.jsrId s ∈ r)

/-- Retention test for a specifier entry: its requirement node was reached. -/
def keepReq (r : List PkgNode) (s : String) : Bool := decide (PkgNode.req s ∈ r)

/-- Modelled from the spec: `remove_root_packages` followed by
`populate_packages` from the missing `graphs.rs` (spec section 4.3) — the
graph is built from the current `npm`/`jsr`/`specifiers` sections with the
pre-change requirement set as roots; everything not reachable from the
surviving root set is discarded and everything reachable is retained exactly
as before. -/
def prune_content (c : LockfileContent) (old_deps removed : List String) :
    LockfileContent :=
  let r := reachSet (toGraph c) (surviving_deps_of old_deps removed)
  { c with
      npm := c.npm.filter (fun kv => keepNpm r kv.1),
      jsr := c.jsr.filter (fun kv => keepJsr r kv.1),
      specifiers := c.specifiers.filter (fun kv => keepReq r kv.1) }

/-- Embedding of `Lockfile::set_workspace_config`.  The missing `workspace_config.rs`
(`SetWorkspaceConfigOptions`, `WorkspaceConfig::new`, `update`) is modelled
from the spec: the workspace field is recomputed from the given config (the
`no_config`/`no_npm` flags are not exercised by any claim and are omitted).
The dirty-flag and pruning control flow follows `lockfile.rs` lines 448-498:
no side effect when the config is unchanged; the flag is set only when the
lockfile was non-empty before the call; pruning runs only when the aggregated
requirement difference old − new is non-empty. -/
def Lockfile.set_workspace_config (lf : Lockfile) (cfg : WorkspaceConfigContent) :
    Lockfile :=
  let was_empty_before := lf.content.is_empty
  let old_workspace_config := lf.content.workspace
  if old_workspace_config = cfg then lf
  else
    let content1 := { lf.content with workspace := cfg }
    let changed1 := if was_empty_before then lf.has_content_changed else true
    let old_deps := old_workspace_config.get_all_dep_reqs
    let new_deps := cfg.get_all_dep_reqs
    let removed_deps := removed_deps_of old_deps new_deps
    if removed_deps.isEmpty then
      { lf with content := content1, has_content_changed := changed1 }
    else
      { lf with
          content := prune_content content1 old_deps removed_deps,
          has_content_changed := changed1 }

/-- Embedding of `load_content` from `Lockfile::with_lockfile_content`, starting from the
already-parsed JSON map (the raw JSON tokenizer is an external collaborator
per spec section 1): dispatch on the `version` string, run the migration
chain, then parse the canonical shape. -/
def load_content (value : List (String × Json)) :
    Except LockfileErrorReason LockfileContent := do
  let version : Option String :=
    match lookupKey value "version" with
    | some (Json.str v) => some v
    | _ => none
  let value2 ← match version with
    | none => transform3_to_4 (transform2_to_3 (transform1_to_2 value))
    | some v =>
      if v = "4" then Except.ok value
      else if v = "3" then transform3_to_4 value
      else if v = "2" then transform3_to_4 (transform2_to_3 value)
      else Except.error (LockfileErrorReason.UnsupportedVersion v)
  (LockfileContent.from_json (Json.obj value2)).mapError
    LockfileErrorReason.DeserializationError

/-- Embedding of `Lockfile::with_lockfile_content`.  `parsed` stands for the result of
`serde_json::from_str` applied to `file_content` (`none` when the text is not
a JSON object) — the tokenizer itself is an external collaborator per spec
section 1. -/
def Lockfile.with_lockfile_content (filename file_content : String)
    (parsed : Option (List (String × Json))) (overwrite : Bool) :
    Except LockfileError Lockfile :=
  if overwrite then .ok (Lockfile.new_empty filename overwrite)
  else if isBlank file_content then
    .error { filename, reason := .Empty }
  else
    match parsed with
    | none => .error { filename, reason := .ParseError }
    | some value =>
      match load_content value with
      | .error reason => .error { filename, reason }
      | .ok content =>
        .ok { overwrite, has_content_changed := false, content, filename,
              original_content := some file_content }

/-- Lockfiles constructed through `new_empty` or a successful
`with_lockfile_content` and mutated only through the public facade
methods. -/
inductive Reached : Lockfile → Prop where
  | new_empty (filename : String) (overwrite : Bool) :
      Reached (Lockfile.new_empty filename overwrite)
  | loaded (filename file_content : String)
      (parsed : Option (List (String × Json))) (overwrite : Bool)
      (lf : Lockfile) :
      Lockfile.with_lockfile_content filename file_content parsed overwrite
        = .ok lf →
      Reached lf
  | insert_remote (lf : Lockfile) (specifier hash : String) :
      Reached lf → Reached (lf.insert_remote specifier hash)
  | insert_npm_package (lf : Lockfile) (info : NpmPackageLockfileInfo) :
      Reached lf → Reached (lf.insert_npm_package info)
  | insert_package_specifier (lf : Lockfile) (req id : String) :
      Reached lf → Reached (lf.insert_package_specifier req id)
  | insert_package (lf : Lockfile) (name integrity : String) :
      Reached lf → Reached (lf.insert_package name integrity)
  | add_package_deps (lf : Lockfile) (name : String) (deps : List String) :
      Reached lf → Reached (lf.add_package_deps name deps)
  | insert_redirect (lf : Lockfile) (source target : String) :
      Reached lf → Reached (lf.insert_redirect source target)
  | remove_redirect (lf : Lockfile) (source : String) :
      Reached lf → Reached (lf.remove_redirect source).2
  | set_workspace_config (lf : Lockfile) (cfg : WorkspaceConfigContent) :
      Reached lf → Reached (lf.set_workspace_config cfg)
  | resolve_write_bytes (lf : Lockfile) :
      Reached lf → Reached lf.resolve_write_bytes.2

/-- Declarative reachability in the package reference graph: a root
requirement reaches itself, and edges extend reachability. -/
inductive Reaches (g : GraphSections) (roots : List String) : PkgNode → Prop where
  | root (r : String) : r ∈ roots → Reaches g roots (.req r)
  | step (n m : PkgNode) : Reaches g roots n → m ∈ succsOf g n → Reaches g roots m

/-- The stored datum of a graph node, used to state that pruning preserves
retained entries byte-for-byte. -/
inductive NodeEntry where
  | spec (target : String)
  | npmE (info : NpmPackageInfo)
  | jsrE (info : JsrPackageInfo)
deriving DecidableEq

/-- The entry a node denotes in a content: its specifier target or package
info. -/
def nodeEntry (c : LockfileContent) : PkgNode → Option NodeEntry
  | .req s => (lookupKey c.specifiers s).map NodeEntry.spec
  | .npmId s => (lookupKey c.npm s).map NodeEntry.npmE
  | .jsrId s => (lookupKey c.jsr s).map NodeEntry.jsrE

/-- A concrete content used by witnesses: jsr packages `a@1.0.0` and
`b@1.0.0` both depend on the shared package `s@1.0.0` through the specifier
`jsr:s@1`, and the workspace declares the requirements `jsr:a@1` and
`jsr:b@1`. -/
def sampleContent : LockfileContent :=
  { version := "4",
    specifiers := [("jsr:a@1", "jsr:a@1.0.0"), ("jsr:b@1", "jsr:b@1.0.0"),
                   ("jsr:s@1", "jsr:s@1.0.0")],
    jsr := [("a@1.0.0", ⟨"ia", ["jsr:s@1"]⟩), ("b@1.0.0", ⟨"ib", ["jsr:s@1"]⟩),
            ("s@1.0.0", ⟨"is", []⟩)],
    npm := [], redirects := [], remote := [],
    workspace := ⟨⟨["jsr:a@1", "jsr:b@1"], []⟩, []⟩ }

/-- A loaded, clean lockfile over `sampleContent`. -/
def sampleLockfile : Lockfile :=
  { overwrite := false, has_content_changed := false, content := sampleContent,
    filename := "deno.lock", original_content := some "" }

/-- The workspace config keeping only requirement `jsr:b@1`. -/
def sampleCfgB : WorkspaceConfigContent := ⟨⟨["jsr:b@1"], []⟩, []⟩

/-- The workspace config with no requirements. -/
def sampleCfgNone : WorkspaceConfigContent := ⟨⟨[], []⟩, []⟩

theorem except_bind_ok {ε α β : Type} (x : Except ε α) (f : α → Except ε β) (b : β)
    (h : x >>= f = .ok b) : ∃ a, x = .ok a ∧ f a = .ok b := by
  cases x with
  | error e => simp [Bind.bind, Except.bind] at h
  | ok a => exact ⟨a, rfl, by simpa [Bind.bind, Except.bind] using h⟩

theorem lookupKey_insertKey {α : Type} (m : List (String × α)) (k k' : String) (v : α) :
    lookupKey (insertKey m k v) k' = if k = k' then some v else lookupKey m k' := by
  induction m with
  | nil => by_cases h : k = k' <;> simp [insertKey, lookupKey, h]
  | cons kv rest ih =>
    simp only [insertKey]
    by_cases h1 : k = kv.1
    · rw [if_pos h1]
      by_cases h2 : k = k'
      · simp only [lookupKey]
        rw [if_pos h2, if_pos h2]
      · simp only [lookupKey]
        rw [if_neg h2, if_neg h2, if_neg (fun hh => h2 (h1.trans hh))]
    · rw [if_neg h1]
      by_cases hlt : k < kv.1
      · rw [if_pos hlt]
        simp only [lookupKey]
      · rw [if_neg hlt]
        simp only [lookupKey]
        by_cases h3 : kv.1 = k'
        · rw [if_pos h3, if_neg (fun hh => h1 (hh.trans h3.symm)), if_pos h3]
        · rw [if_neg h3, ih]
          by_cases h2 : k = k'
          · rw [if_pos h2, if_pos h2]
          · rw [if_neg h2, if_neg h2, if_neg h3]

theorem lookupKey_filter {α : Type} (p : String → Bool) (m : List (String × α)) (k : String) :
    lookupKey (m.filter (fun kv => p kv.1)) k
      = if p k then lookupKey m k else none := by
  induction m with
  | nil => simp [lookupKey]
  | cons kv rest ih =>
    by_cases hp : p kv.1
    · by_cases hk : kv.1 = k
      · subst hk; simp [List.filter_cons, hp, lookupKey]
      · simp [List.filter_cons, hp, lookupKey, hk, ih]
    · by_cases hk : kv.1 = k
      · subst hk
        simp only [List.filter_cons]
        rw [if_neg (by simp [hp])]
        simp [ih, lookupKey, hp]
      · simp only [List.filter_cons]
        rw [if_neg (by simp [hp])]
        simp [ih, lookupKey, hk]

theorem mem_stepClose {g : GraphSections} {s : List PkgNode} {x : PkgNode} :
    x ∈ stepClose g s ↔ x ∈ s ∨ ∃ y ∈ s, x ∈ succsOf g y := by
  simp [stepClose, List.mem_dedup, List.mem_append, List.mem_flatMap]

theorem subset_stepClose {g : GraphSections} {s : List PkgNode} {x : PkgNode}
    (hx : x ∈ s) : x ∈ stepClose g s :=
  mem_stepClose.mpr (Or.inl hx)

theorem closeN_mono_set (g : GraphSections) :
    ∀ (n : Nat) (s t : List PkgNode), (∀ x ∈ s, x ∈ t) →
      ∀ x ∈ closeN g n s, x ∈ closeN g n t := by
  intro n
  induction n with
  | zero => intro s t h x hx; exact h x hx
  | succ n ih =>
    intro s t h x hx
    simp only [closeN] at hx ⊢
    refine ih (stepClose g s) (stepClose g t) ?_ x hx
    intro y hy
    rcases mem_stepClose.mp hy with hy | ⟨z, hz, hzy⟩
    · exact subset_stepClose (h y hy)
    · exact mem_stepClose.mpr (Or.inr ⟨z, h z hz, hzy⟩)

theorem subset_closeN (g : GraphSections) :
    ∀ (n : Nat) (s : List PkgNode), ∀ x ∈ s, x ∈ closeN g n s := by
  intro n
  induction n with
  | zero => intro s x hx; exact hx
  | succ n ih =>
    intro s x hx
    simp only [closeN]
    exact ih (stepClose g s) x (subset_stepClose hx)

theorem closeN_fuel_le (g : GraphSections) {m n : Nat} (hmn : m ≤ n) :
    ∀ (s : List PkgNode), ∀ x ∈ closeN g m s, x ∈ closeN g n s := by
  induction n with
  | zero => intro s x hx; simpa [Nat.le_zero.mp hmn] using hx
  | succ n ih =>
    intro s x hx
    rcases Nat.lt_or_ge m (n + 1) with h | h
    · have hx' := ih (Nat.lt_succ_iff.mp h) s x hx
      simp only [closeN]
      exact closeN_mono_set g n s (stepClose g s) (fun y hy => subset_stepClose hy) x hx'
    · have : m = n + 1 := Nat.le_antisymm hmn h
      subst this; exact hx

theorem reachSet_mono_roots (g : GraphSections) (roots roots' : List String)
    (hsub : ∀ r ∈ roots, r ∈ roots') (hlen : roots.length ≤ roots'.length) :
    ∀ x ∈ reachSet g roots, x ∈ reachSet g roots' := by
  intro x hx
  have hfuel : graphFuel g roots ≤ graphFuel g roots' := by
    simp only [graphFuel]; omega
  have h1 := closeN_fuel_le g hfuel (roots.map PkgNode.req) x hx
  refine closeN_mono_set g (graphFuel g roots') _ _ ?_ x h1
  intro y hy
  rcases List.mem_map.mp hy with ⟨r, hr, rfl⟩
  exact List.mem_map.mpr ⟨r, hsub r hr, rfl⟩

theorem closeN_sound (g : GraphSections) (roots : List String) :
    ∀ (n : Nat) (s : List PkgNode), (∀ y ∈ s, Reaches g roots y) →
      ∀ x ∈ closeN g n s, Reaches g roots x := by
  intro n
  induction n with
  | zero => intro s h x hx; exact h x hx
  | succ n ih =>
    intro s h x hx
    simp only [closeN] at hx
    refine ih (stepClose g s) ?_ x hx
    intro y hy
    rcases mem_stepClose.mp hy with hy | ⟨z, hz, hzy⟩
    · exact h y hy
    · exact .step z y (h z hz) hzy

theorem reachSet_sound (g : GraphSections) (roots : List String) (x : PkgNode)
    (h : x ∈ reachSet g roots) : Reaches g roots x := by
  refine closeN_sound g roots (graphFuel g roots) (roots.map PkgNode.req) ?_ x h
  intro y hy
  rcases List.mem_map.mp hy with ⟨r, hr, rfl⟩
  exact .root r hr

theorem reaches_mono_roots (g : GraphSections) {roots roots' : List String}
    (hsub : ∀ r ∈ roots, r ∈ roots') {x : PkgNode} (h : Reaches g roots x) :
    Reaches g roots' x := by
  induction h with
  | root r hr => exact .root r (hsub r hr)
  | step n m _ hs ih => exact .step n m ih hs

theorem reaches_mono_graph (g g' : GraphSections)
    (hsucc : ∀ n : PkgNode, ∀ m ∈ succsOf g' n, m ∈ succsOf g n)
    {roots : List String} {x : PkgNode} (h : Reaches g' roots x) :
    Reaches g roots x := by
  induction h with
  | root r hr => exact .root r hr
  | step n m _ hs ih => exact .step n m ih (hsucc n m hs)

theorem succsOf_mono_of_lookup (g g' : GraphSections)
    (hn : ∀ k v, lookupKey g'.npm k = some v → lookupKey g.npm k = some v)
    (hj : ∀ k v, lookupKey g'.jsr k = some v → lookupKey g.jsr k = some v)
    (hs : ∀ k v, lookupKey g'.specifiers k = some v → lookupKey g.specifiers k = some v) :
    ∀ n : PkgNode, ∀ m ∈ succsOf g' n, m ∈ succsOf g n := by
  intro n m hm
  cases n with
  | req s =>
    simp only [succsOf] at hm ⊢
    cases hlk : lookupKey g'.specifiers s with
    | none => rw [hlk] at hm; simp at hm
    | some v => rw [hlk] at hm; rw [hs s v hlk]; exact hm
  | npmId s =>
    simp only [succsOf] at hm ⊢
    cases hlk : lookupKey g'.npm s with
    | none => rw [hlk] at hm; simp at hm
    | some v => rw [hlk] at hm; rw [hn s v hlk]; exact hm
  | jsrId s =>
    simp only [succsOf] at hm ⊢
    cases hlk : lookupKey g'.jsr s with
    | none => rw [hlk] at hm; simp at hm
    | some v => rw [hlk] at hm; rw [hj s v hlk]; exact hm

theorem not_reaches_of_nil_roots (g : GraphSections) {roots : List String}
    (hr : roots = []) (x : PkgNode) : ¬ Reaches g roots x := by
  subst hr
  intro h
  induction h with
  | root r hr => exact absurd hr (List.not_mem_nil r)
  | step n m _ _ ih => exact ih

theorem from_json_obj_version (fields : List (String × Json)) (c : LockfileContent)
    (h : LockfileContent.from_json (Json.obj fields) = .ok c) :
    c.version = (match lookupKey fields "version" with
      | some (Json.str v) => v
      | _ => "3") := by
  simp only [LockfileContent.from_json] at h
  obtain ⟨specifiers, h1, h⟩ := except_bind_ok _ _ _ h
  obtain ⟨raw_npm, h2, h⟩ := except_bind_ok _ _ _ h
  obtain ⟨npm, h3, h⟩ := except_bind_ok _ _ _ h
  obtain ⟨raw_jsr, h4, h⟩ := except_bind_ok _ _ _ h
  obtain ⟨jsr, h5, h⟩ := except_bind_ok _ _ _ h
  obtain ⟨redirects, h6, h⟩ := except_bind_ok _ _ _ h
  obtain ⟨remote, h7, h⟩ := except_bind_ok _ _ _ h
  obtain ⟨workspace, h8, h⟩ := except_bind_ok _ _ _ h
  injection h with h
  subst h
  rfl

theorem transform3_to_4_version (m l : List (String × Json))
    (h : transform3_to_4 m = .ok l) :
    lookupKey l "version" = some (Json.str "4") := by
  unfold transform3_to_4 at h
  split at h
  · injection h with h
    subst h
    simp [lookupKey]
  · simp at h
  · injection h with h
    subst h
    simp [lookupKey]

theorem load_branch_version
    (X : Except LockfileErrorReason (List (String × Json))) (c : LockfileContent)
    (h : (X >>= fun y => (LockfileContent.from_json (Json.obj y)).mapError
            LockfileErrorReason.DeserializationError) = .ok c)
    (hX : ∀ l, X = .ok l → lookupKey l "version" = some (Json.str "4")) :
    c.version = "4" := by
  obtain ⟨l, h1, h2⟩ := except_bind_ok _ _ _ h
  have hfj : LockfileContent.from_json (Json.obj l) = .ok c := by
    cases hx : LockfileContent.from_json (Json.obj l) with
    | error e => rw [hx] at h2; simp [Except.mapError] at h2
    | ok c2 =>
      rw [hx] at h2
      have hc : c2 = c := by simpa [Except.mapError] using h2
      rw [hc]
  have hv := from_json_obj_version l c hfj
  rw [hX l h1] at hv
  exact hv

theorem load_content_version (value : List (String × Json)) (c : LockfileContent)
    (h : load_content value = .ok c) : c.version = "4" := by
  simp only [load_content] at h
  cases hlv : lookupKey value "version" with
  | none =>
    simp only [hlv] at h
    exact load_branch_version _ c h (fun l hl => transform3_to_4_version _ l hl)
  | some j =>
    cases j with
    | str s =>
      simp only [hlv] at h
      by_cases h4 : s = "4"
      · rw [if_pos h4] at h
        refine load_branch_version _ c h (fun l hl => ?_)
        injection hl with hl
        subst hl
        rw [hlv, h4]
      · rw [if_neg h4] at h
        by_cases h3 : s = "3"
        · rw [if_pos h3] at h
          exact load_branch_version _ c h (fun l hl => transform3_to_4_version _ l hl)
        · rw [if_neg h3] at h
          by_cases hv2 : s = "2"
          · rw [if_pos hv2] at h
            exact load_branch_version _ c h (fun l hl => transform3_to_4_version _ l hl)
          · rw [if_neg hv2] at h
            simp [Bind.bind, Except.bind] at h
    | num n =>
      simp only [hlv] at h
      exact load_branch_version _ c h (fun l hl => transform3_to_4_version _ l hl)
    | bool b =>
      simp only [hlv] at h
      exact load_branch_version _ c h (fun l hl => transform3_to_4_version _ l hl)
    | null =>
      simp only [hlv] at h
      exact load_branch_version _ c h (fun l hl => transform3_to_4_version _ l hl)
    | arr xs =>
      simp only [hlv] at h
      exact load_branch_version _ c h (fun l hl => transform3_to_4_version _ l hl)
    | obj fs =>
      simp only [hlv] at h
      exact load_branch_version _ c h (fun l hl => transform3_to_4_version _ l hl)

theorem version_insert_remote (lf : Lockfile) (k v : String) :
    (lf.insert_remote k v).content.version = lf.content.version := by
  unfold Lockfile.insert_remote
  split
  · rfl
  · split <;> rfl

theorem version_insert_npm_package (lf : Lockfile) (p : NpmPackageLockfileInfo) :
    (lf.insert_npm_package p).content.version = lf.content.version := by
  unfold Lockfile.insert_npm_package
  split
  · rfl
  · dsimp only
    split <;> rfl

theorem version_insert_package_specifier (lf : Lockfile) (k v : String) :
    (lf.insert_package_specifier k v).content.version = lf.content.version := by
  unfold Lockfile.insert_package_specifier
  split
  · rfl
  · split <;> rfl

theorem version_insert_package (lf : Lockfile) (n i : String) :
    (lf.insert_package n i).content.version = lf.content.version := by
  unfold Lockfile.insert_package
  split
  · rfl
  · split <;> rfl

theorem version_add_package_deps (lf : Lockfile) (n : String) (deps : List String) :
    (lf.add_package_deps n deps).content.version = lf.content.version := by
  unfold Lockfile.add_package_deps
  split <;> rfl

theorem version_insert_redirect (lf : Lockfile) (k v : String) :
    (lf.insert_redirect k v).content.version = lf.content.version := by
  unfold Lockfile.insert_redirect
  split
  · rfl
  · split
    · rfl
    · split <;> rfl

theorem version_remove_redirect (lf : Lockfile) (k : String) :
    (lf.remove_redirect k).2.content.version = lf.content.version := by
  unfold Lockfile.remove_redirect
  split <;> rfl

theorem version_set_workspace_config (lf : Lockfile) (cfg : WorkspaceConfigContent) :
    (lf.set_workspace_config cfg).content.version = lf.content.version := by
  unfold Lockfile.set_workspace_config
  dsimp only
  split
  · rfl
  · split <;> rfl

theorem version_resolve_write_bytes (lf : Lockfile) :
    lf.resolve_write_bytes.2.content.version = lf.content.version := by
  unfold Lockfile.resolve_write_bytes
  split
  · rfl
  · split <;> rfl

theorem with_lockfile_content_version (f t : String)
    (parsed : Option (List (String × Json))) (o : Bool) (lf : Lockfile)
    (h : Lockfile.with_lockfile_content f t parsed o = .ok lf) :
    lf.content.version = "4" := by
  unfold Lockfile.with_lockfile_content at h
  split at h
  · injection h with h
    subst h
    rfl
  · split at h
    · simp at h
    · split at h
      · simp at h
      · split at h
        · simp at h
        · next content hlc =>
          injection h with h
          subst h
          exact load_content_version _ _ hlc

theorem to_json_some_of_version (lf : Lockfile) (hv : lf.content.version = "4") :
    lf.to_json ≠ none := by
  unfold Lockfile.to_json
  split
  · split
    · simp
    · rw [if_neg (by simp [hv])]
      simp
  · rw [if_neg (by simp [hv])]
    simp

/-- C9: every lockfile constructed through `new_empty` or
`with_lockfile_content` and mutated only through the public facade methods has
content version `"4"`, so the defensive panic in `to_json` (modelled as the
`none` result) is never reached. -/
theorem c9_version_always_four (lf : Lockfile) (h : Reached lf) :
    lf.content.version = "4" ∧ lf.to_json ≠ none := by
  have hv : lf.content.version = "4" := by
    induction h with
    | new_empty f o => rfl
    | loaded f t parsed o lf h => exact with_lockfile_content_version f t parsed o lf h
    | insert_remote lf k v _ ih => rw [version_insert_remote]; exact ih
    | insert_npm_package lf p _ ih => rw [version_insert_npm_package]; exact ih
    | insert_package_specifier lf k v _ ih => rw [version_insert_package_specifier]; exact ih
    | insert_package lf n i _ ih => rw [version_insert_package]; exact ih
    | add_package_deps lf n deps _ ih => rw [version_add_package_deps]; exact ih
    | insert_redirect lf k v _ ih => rw [version_insert_redirect]; exact ih
    | remove_redirect lf k _ ih => rw [version_remove_redirect]; exact ih
    | set_workspace_config lf cfg _ ih => rw [version_set_workspace_config]; exact ih
    | resolve_write_bytes lf _ ih => rw [version_resolve_write_bytes]; exact ih
  exact ⟨hv, to_json_some_of_version lf hv⟩

theorem c9_witness :
    (Lockfile.new_empty "deno.lock" false).content.version = "4" ∧
    (Lockfile.new_empty "deno.lock" false).to_json ≠ none :=
  c9_version_always_four _ (Reached.new_empty "deno.lock" false)

/-- C6: when a lockfile has an original text, nothing changed and overwrite is
unset, `to_json` returns the original text verbatim. -/
theorem c6_to_json_original (lf : Lockfile) (s : String)
    (horig : lf.original_content = some s)
    (hchanged : lf.has_content_changed = false)
    (hover : lf.overwrite = false) :
    lf.to_json = some s := by
  unfold Lockfile.to_json
  rw [horig]
  simp [hchanged, hover]

theorem c6_witness : (Lockfile.new_empty "deno.lock" false).to_json = some "" :=
  c6_to_json_original _ "" rfl rfl rfl

/-- C7: with overwrite set, `with_lockfile_content` succeeds on every input
text (even blank or unparsable) and yields exactly `new_empty`'s lockfile:
empty version-4 content, clean flag, empty-string original text. -/
theorem c7_overwrite_is_new_empty (filename file_content : String)
    (parsed : Option (List (String × Json))) :
    Lockfile.with_lockfile_content filename file_content parsed true
        = .ok (Lockfile.new_empty filename true) ∧
    (Lockfile.new_empty filename true).content = LockfileContent.empty ∧
    (Lockfile.new_empty filename true).content.version = "4" ∧
    (Lockfile.new_empty filename true).has_content_changed = false ∧
    (Lockfile.new_empty filename true).original_content = some "" :=
  ⟨rfl, rfl, rfl, rfl, rfl⟩

theorem rwb_skip (lf : Lockfile) (hc : lf.has_content_changed = false)
    (ho : lf.overwrite = false) : lf.resolve_write_bytes = (none, lf) := by
  simp [Lockfile.resolve_write_bytes, hc, ho]

theorem rwb_write (lf : Lockfile) (s : String)
    (hcond : (!lf.has_content_changed && !lf.overwrite) = false)
    (hs : lf.to_json = some s) :
    lf.resolve_write_bytes =
      (some s, { lf with has_content_changed := false, original_content := some s }) := by
  simp [Lockfile.resolve_write_bytes, hcond, hs]

/-- C5: `resolve_write_bytes` returns nothing exactly when nothing changed and
overwrite is unset; otherwise it returns the `to_json` text, after which the
dirty flag is cleared and the original text equals the returned text; with
overwrite set it returns bytes on every call, including an immediately
repeated one.  (The hypothesis pins the canonical content version, which
`c9_version_always_four` shows holds for every reachable lockfile, so the
`to_json` panic case is excluded.) -/
theorem c5_resolve_write_bytes (lf : Lockfile) (hv : lf.content.version = "4") :
    (lf.resolve_write_bytes.1 = none ↔
      (lf.has_content_changed = false ∧ lf.overwrite = false)) ∧
    (lf.has_content_changed = true ∨ lf.overwrite = true →
      lf.resolve_write_bytes.1 = lf.to_json ∧
      lf.resolve_write_bytes.2.has_content_changed = false ∧
      lf.resolve_write_bytes.2.original_content = lf.to_json) ∧
    (lf.overwrite = true →
      lf.resolve_write_bytes.1.isSome = true ∧
      lf.resolve_write_bytes.2.resolve_write_bytes.1.isSome = true) := by
  obtain ⟨s, hs⟩ : ∃ s, lf.to_json = some s := by
    cases hx : lf.to_json with
    | none => exact absurd hx (to_json_some_of_version lf hv)
    | some s => exact ⟨s, rfl⟩
  cases hc : lf.has_content_changed with
  | false =>
    cases ho : lf.overwrite with
    | false =>
      rw [rwb_skip lf hc ho]
      refine ⟨by simp, ?_, ?_⟩
      · rintro (h | h) <;> exact absurd h (by decide)
      · intro h
        exact absurd h (by decide)
    | true =>
      have hw := rwb_write lf s (by simp [hc, ho]) hs
      rw [hw]
      refine ⟨by simp [hc, ho], fun _ => ⟨hs.symm, rfl, hs.symm⟩, fun _ => ⟨rfl, ?_⟩⟩
      set lf2 : Lockfile :=
        { lf with has_content_changed := false, original_content := some s } with hlf2
      obtain ⟨s2, hs2⟩ : ∃ s2, lf2.to_json = some s2 := by
        cases hx : lf2.to_json with
        | none => exact absurd hx (to_json_some_of_version lf2 hv)
        | some s2 => exact ⟨s2, rfl⟩
      rw [rwb_write lf2 s2 (by simp [hlf2, ho]) hs2]
      rfl
  | true =>
    have hw := rwb_write lf s (by simp [hc]) hs
    rw [hw]
    refine ⟨by simp [hc], fun _ => ⟨hs.symm, rfl, hs.symm⟩, fun hover => ⟨rfl, ?_⟩⟩
    set lf2 : Lockfile :=
      { lf with has_content_changed := false, original_content := some s } with hlf2
    obtain ⟨s2, hs2⟩ : ∃ s2, lf2.to_json = some s2 := by
      cases hx : lf2.to_json with
      | none => exact absurd hx (to_json_some_of_version lf2 hv)
      | some s2 => exact ⟨s2, rfl⟩
    rw [rwb_write lf2 s2 (by simp [hlf2, hover]) hs2]
    rfl

theorem c5_witness :
    (Lockfile.new_empty "deno.lock" false).resolve_write_bytes.1 = none ∧
    (Lockfile.new_empty "deno.lock" true).resolve_write_bytes.1.isSome = true ∧
    (Lockfile.new_empty "deno.lock" true).resolve_write_bytes.2.resolve_write_bytes.1.isSome
      = true := by
  have h1 := c5_resolve_write_bytes (Lockfile.new_empty "deno.lock" false) rfl
  have h2 := c5_resolve_write_bytes (Lockfile.new_empty "deno.lock" true) rfl
  exact ⟨h1.1.mpr ⟨rfl, rfl⟩, (h2.2.2 rfl).1, (h2.2.2 rfl).2⟩

/-- C4: attaching any workspace config to a lockfile whose content is empty
leaves the dirty flag untouched; attaching a config different from the stored
one to a non-empty lockfile sets it, even with no package removal. -/
theorem c4_workspace_attach_dirty (lf : Lockfile) (cfg : WorkspaceConfigContent) :
    (lf.content.is_empty = true →
      (lf.set_workspace_config cfg).has_content_changed = lf.has_content_changed) ∧
    (lf.content.is_empty = false → cfg ≠ lf.content.workspace →
      (lf.set_workspace_config cfg).has_content_changed = true) := by
  constructor
  · intro he
    unfold Lockfile.set_workspace_config
    dsimp only
    split
    · rfl
    · split <;> simp [he]
  · intro hne hcfg
    unfold Lockfile.set_workspace_config
    dsimp only
    rw [if_neg (fun hh => hcfg hh.symm)]
    split <;> simp [hne]

theorem c4_witness :
    ((Lockfile.new_empty "deno.lock" false).set_workspace_config sampleCfgB).has_content_changed
      = false ∧
    (sampleLockfile.set_workspace_config sampleCfgB).has_content_changed = true := by
  have h1 := c4_workspace_attach_dirty (Lockfile.new_empty "deno.lock" false) sampleCfgB
  have h2 := c4_workspace_attach_dirty sampleLockfile sampleCfgB
  exact ⟨(h1.1 rfl).trans rfl, h2.2 rfl (by decide)⟩

/-- C1 counterexample: on the empty JSON object — which has no `version`
member at all — `from_json` succeeds with version `"3"`, not `"4"` as the
claim states. -/
theorem c1_counterexample :
    lookupKey ([] : List (String × Json)) "version" = none ∧
    (LockfileContent.from_json (Json.obj [])).map LockfileContent.version
      = Except.ok "3" ∧
    (LockfileContent.from_json (Json.obj [])).map LockfileContent.version
      ≠ Except.ok "4" := by
  refine ⟨rfl, rfl, fun h => ?_⟩
  have h2 : (Except.ok "3" : Except DeserializationError String) = Except.ok "4" := by
    calc (Except.ok "3" : Except DeserializationError String)
        = (LockfileContent.from_json (Json.obj [])).map LockfileContent.version := rfl
      _ = Except.ok "4" := h
  injection h2 with h2
  exact absurd h2 (by decide)

/-- C1 amended: for every JSON object with no `version` member of string
type, `from_json` (when it succeeds) returns a content whose version field is
`"3"`. -/
theorem c1_version_default_three (fields : List (String × Json)) (c : LockfileContent)
    (hver : ∀ j, lookupKey fields "version" = some j → decodeString j = none)
    (h : LockfileContent.from_json (Json.obj fields) = .ok c) :
    c.version = "3" := by
  have hv := from_json_obj_version fields c h
  cases hlv : lookupKey fields "version" with
  | none => rw [hlv] at hv; simpa using hv
  | some j =>
    rw [hlv] at hv
    have hj := hver j hlv
    cases j with
    | str s => simp [decodeString] at hj
    | num n => simpa using hv
    | bool b => simpa using hv
    | null => simpa using hv
    | arr xs => simpa using hv
    | obj fs => simpa using hv

theorem c1_witness :
    ({ version := "3", specifiers := [], jsr := [], npm := [], redirects := [],
       remote := [], workspace := .emptyConfig } : LockfileContent).version = "3" :=
  c1_version_default_three [] _ (fun j hj => by simp [lookupKey] at hj) rfl

/-- C10: replacing an existing jsr package's integrity through
`insert_package` preserves its dependency set, every other jsr entry, and
every other section of the content. -/
theorem c10_insert_package_frame (lf : Lockfile) (name integrity : String)
    (info : JsrPackageInfo)
    (hlk : lookupKey lf.content.jsr name = some info)
    (hne : info.integrity ≠ integrity) :
    lookupKey (lf.insert_package name integrity).content.jsr name
        = some ⟨integrity, info.dependencies⟩ ∧
    (∀ m, m ≠ name →
      lookupKey (lf.insert_package name integrity).content.jsr m
        = lookupKey lf.content.jsr m) ∧
    (lf.insert_package name integrity).content.specifiers = lf.content.specifiers ∧
    (lf.insert_package name integrity).content.npm = lf.content.npm ∧
    (lf.insert_package name integrity).content.redirects = lf.content.redirects ∧
    (lf.insert_package name integrity).content.remote = lf.content.remote ∧
    (lf.insert_package name integrity).content.workspace = lf.content.workspace ∧
    (lf.insert_package name integrity).content.version = lf.content.version := by
  have hdef : lf.insert_package name integrity =
      { lf with
          content := { lf.content with
            jsr := insertKey lf.content.jsr name ⟨integrity, info.dependencies⟩ },
          has_content_changed := true } := by
    unfold Lockfile.insert_package
    rw [hlk]
    dsimp only
    rw [if_pos hne]
  rw [hdef]
  refine ⟨?_, ?_, rfl, rfl, rfl, rfl, rfl, rfl⟩
  · rw [show ({ lf with
        content := { lf.content with
          jsr := insertKey lf.content.jsr name ⟨integrity, info.dependencies⟩ },
        has_content_changed := true } : Lockfile).content.jsr
      = insertKey lf.content.jsr name ⟨integrity, info.dependencies⟩ from rfl]
    rw [lookupKey_insertKey]
    simp
  · intro m hm
    rw [show ({ lf with
        content := { lf.content with
          jsr := insertKey lf.content.jsr name ⟨integrity, info.dependencies⟩ },
        has_content_changed := true } : Lockfile).content.jsr
      = insertKey lf.content.jsr name ⟨integrity, info.dependencies⟩ from rfl]
    rw [lookupKey_insertKey]
    rw [if_neg (fun hh => hm hh.symm)]

theorem c10_witness :
    lookupKey (sampleLockfile.insert_package "a@1.0.0" "ia2").content.jsr "a@1.0.0"
      = some ⟨"ia2", ["jsr:s@1"]⟩ ∧
    lookupKey (sampleLockfile.insert_package "a@1.0.0" "ia2").content.jsr "b@1.0.0"
      = lookupKey sampleLockfile.content.jsr "b@1.0.0" ∧
    (sampleLockfile.insert_package "a@1.0.0" "ia2").content.remote
      = sampleLockfile.content.remote := by
  have h := c10_insert_package_frame sampleLockfile "a@1.0.0" "ia2"
    ⟨"ia", ["jsr:s@1"]⟩ rfl (by decide)
  exact ⟨h.1, h.2.1 "b@1.0.0" (by decide), h.2.2.2.2.2.1⟩

/-- C3 counterexample: `insert_redirect` with the fresh key `"jsr:a"` — not
present in the redirects map — leaves `has_content_changed` false, contrary
to the claim that inserting a new key always sets it. -/
theorem c3_counterexample :
    lookupKey (Lockfile.new_empty "deno.lock" false).content.redirects "jsr:a" = none ∧
    ((Lockfile.new_empty "deno.lock" false).insert_redirect "jsr:a" "b").has_content_changed
      = false :=
  ⟨rfl, rfl⟩

/-- C3 amended: for `insert_remote`, `insert_npm_package`,
`insert_package_specifier`, `insert_package` and `insert_redirect`, storing a
value equal to the one already stored leaves `has_content_changed` unchanged,
and a new key or a changed value sets it to true — except that
`insert_redirect` ignores any source key starting with `"jsr:"` entirely. -/
theorem c3_dirty_gating (lf : Lockfile) :
    (∀ k v, lookupKey lf.content.remote k = some v →
      (lf.insert_remote k v).has_content_changed = lf.has_content_changed) ∧
    (∀ k v, lookupKey lf.content.remote k ≠ some v →
      (lf.insert_remote k v).has_content_changed = true) ∧
    (∀ p : NpmPackageLockfileInfo,
      lookupKey lf.content.npm p.serialized_id = some (npmInfoOf p) →
      (lf.insert_npm_package p).has_content_changed = lf.has_content_changed) ∧
    (∀ p : NpmPackageLockfileInfo,
      lookupKey lf.content.npm p.serialized_id ≠ some (npmInfoOf p) →
      (lf.insert_npm_package p).has_content_changed = true) ∧
    (∀ k v, lookupKey lf.content.specifiers k = some v →
      (lf.insert_package_specifier k v).has_content_changed = lf.has_content_changed) ∧
    (∀ k v, lookupKey lf.content.specifiers k ≠ some v →
      (lf.insert_package_specifier k v).has_content_changed = true) ∧
    (∀ n i info, lookupKey lf.content.jsr n = some info → info.integrity = i →
      (lf.insert_package n i).has_content_changed = lf.has_content_changed) ∧
    (∀ n i, (∀ info, lookupKey lf.content.jsr n = some info → info.integrity ≠ i) →
      (lf.insert_package n i).has_content_changed = true) ∧
    (∀ k v, lookupKey lf.content.redirects k = some v →
      (lf.insert_redirect k v).has_content_changed = lf.has_content_changed) ∧
    (∀ k v, strStartsWith k "jsr:" = false → lookupKey lf.content.redirects k ≠ some v →
      (lf.insert_redirect k v).has_content_changed = true) ∧
    (∀ k v, strStartsWith k "jsr:" = true → lf.insert_redirect k v = lf) := by
  refine ⟨?_, ?_, ?_, ?_, ?_, ?_, ?_, ?_, ?_, ?_, ?_⟩
  · intro k v h
    unfold Lockfile.insert_remote
    simp only [h]
    simp
  · intro k v h
    unfold Lockfile.insert_remote
    cases hlk : lookupKey lf.content.remote k with
    | none => simp only [hlk]
    | some w =>
      simp only [hlk]
      rw [if_neg (fun hh => h (by rw [hlk, hh]))]
  · intro p h
    unfold Lockfile.insert_npm_package
    dsimp only
    simp only [h]
    simp
  · intro p h
    unfold Lockfile.insert_npm_package
    dsimp only
    cases hlk : lookupKey lf.content.npm p.serialized_id with
    | none => simp only [hlk]
    | some w =>
      simp only [hlk]
      rw [if_neg (fun hh => h (by rw [hlk, hh]))]
  · intro k v h
    unfold Lockfile.insert_package_specifier
    simp only [h]
    simp
  · intro k v h
    unfold Lockfile.insert_package_specifier
    cases hlk : lookupKey lf.content.specifiers k with
    | none => simp only [hlk]
    | some w =>
      simp only [hlk]
      rw [if_neg (fun hh => h (by rw [hlk, hh]))]
  · intro n i info hlk hint
    unfold Lockfile.insert_package
    simp only [hlk]
    rw [if_neg (fun hh => hh hint)]
  · intro n i h
    unfold Lockfile.insert_package
    cases hlk : lookupKey lf.content.jsr n with
    | none => simp only [hlk]
    | some info =>
      simp only [hlk]
      rw [if_pos (h info hlk)]
  · intro k v h
    unfold Lockfile.insert_redirect
    by_cases hjsr : strStartsWith k "jsr:" = true
    · rw [if_pos hjsr]
    · rw [if_neg hjsr]
      simp only [h]
      simp
  · intro k v hpre h
    unfold Lockfile.insert_redirect
    rw [if_neg (by simp [hpre])]
    cases hlk : lookupKey lf.content.redirects k with
    | none => simp only [hlk]
    | some w =>
      simp only [hlk]
      rw [if_neg (fun hh => h (by rw [hlk, hh]))]
  · intro k v hpre
    unfold Lockfile.insert_redirect
    rw [if_pos hpre]

theorem c3_witness :
    (sampleLockfile.insert_package "a@1.0.0" "ia").has_content_changed = false ∧
    (sampleLockfile.insert_remote "u" "h").has_content_changed = true ∧
    sampleLockfile.insert_redirect "jsr:x" "y" = sampleLockfile := by
  obtain ⟨h1, h2, h3, h4, h5, h6, h7, h8, h9, h10, h11⟩ := c3_dirty_gating sampleLockfile
  refine ⟨(h7 "a@1.0.0" "ia" ⟨"ia", ["jsr:s@1"]⟩ rfl rfl).trans rfl, ?_, ?_⟩
  · exact h2 "u" "h" (by decide)
  · exact h11 "jsr:x" "y" rfl

/-- C8: for every parsed JSON object whose top-level `version` member is a
string other than `"2"`, `"3"`, `"4"`, loading with overwrite unset fails
with `UnsupportedVersion` and no lockfile is produced, and the error displays
exactly the documented message with the version and path substituted. -/
theorem c8_unsupported_version (filename file_content v : String)
    (fields : List (String × Json))
    (hnb : isBlank file_content = false)
    (hv : lookupKey fields "version" = some (Json.str v))
    (h4 : v ≠ "4") (h3 : v ≠ "3") (h2 : v ≠ "2") :
    Lockfile.with_lockfile_content filename file_content (some fields) false
      = .error { filename, reason := .UnsupportedVersion v } ∧
    LockfileError.display { filename, reason := .UnsupportedVersion v }
      = "Unsupported lockfile version '" ++ v
        ++ "'. Try upgrading Deno or recreating the lockfile at '"
        ++ filename ++ "'." := by
  constructor
  · have hl : load_content fields = .error (.UnsupportedVersion v) := by
      simp only [load_content]
      simp only [hv]
      rw [if_neg h4, if_neg h3, if_neg h2]
      simp [Bind.bind, Except.bind]
    unfold Lockfile.with_lockfile_content
    rw [if_neg (by decide)]
    rw [if_neg (by simp [hnb])]
    simp only [hl]
  · rfl

theorem c8_witness :
    Lockfile.with_lockfile_content "lockfile.json" "x"
        (some [("version", Json.str "2000")]) false
      = .error { filename := "lockfile.json", reason := .UnsupportedVersion "2000" } ∧
    LockfileError.display
        { filename := "lockfile.json", reason := .UnsupportedVersion "2000" }
      = "Unsupported lockfile version '2000'. Try upgrading Deno or recreating the lockfile at 'lockfile.json'." := by
  have h := c8_unsupported_version "lockfile.json" "x" "2000"
    [("version", Json.str "2000")] (by decide) rfl (by decide) (by decide) (by decide)
  exact ⟨h.1, h.2.trans (by decide)⟩

theorem mem_removed_iff (old new : List String) (d : String) :
    d ∈ removed_deps_of old new ↔ d ∈ old ∧ d ∉ new := by
  simp [removed_deps_of, List.mem_filter]

theorem mem_surviving_iff (old removed : List String) (d : String) :
    d ∈ surviving_deps_of old removed ↔ d ∈ old ∧ d ∉ removed := by
  simp [surviving_deps_of, List.mem_filter]

theorem isEmpty_false_of_mem {α : Type} {l : List α} {a : α} (h : a ∈ l) :
    l.isEmpty = false := by
  cases l with
  | nil => exact absurd h (List.not_mem_nil a)
  | cons x xs => rfl

theorem set_workspace_config_content_prune (lf : Lockfile)
    (cfg : WorkspaceConfigContent)
    (hne : lf.content.workspace ≠ cfg)
    (hrem : (removed_deps_of lf.content.workspace.get_all_dep_reqs
        cfg.get_all_dep_reqs).isEmpty = false) :
    (lf.set_workspace_config cfg).content
      = prune_content { lf.content with workspace := cfg }
          lf.content.workspace.get_all_dep_reqs
          (removed_deps_of lf.content.workspace.get_all_dep_reqs
            cfg.get_all_dep_reqs) := by
  unfold Lockfile.set_workspace_config
  dsimp only
  rw [if_neg hne]
  rw [if_neg (by rw [hrem]; simp)]

theorem nodeEntry_prune (c : LockfileContent) (old removed : List String)
    (T : PkgNode) :
    nodeEntry (prune_content c old removed) T
      = if T ∈ reachSet (toGraph c) (surviving_deps_of old removed)
        then nodeEntry c T else none := by
  cases T with
  | req s =>
    simp only [prune_content, nodeEntry]
    rw [lookupKey_filter (keepReq (reachSet (toGraph c) (surviving_deps_of old removed)))
      c.specifiers s]
    by_cases h : PkgNode.req s ∈ reachSet (toGraph c) (surviving_deps_of old removed)
    · rw [if_pos (by simp [keepReq, h]), if_pos h]
    · rw [if_neg (by simp [keepReq, h]), if_neg h]
      rfl
  | npmId s =>
    simp only [prune_content, nodeEntry]
    rw [lookupKey_filter (keepNpm (reachSet (toGraph c) (surviving_deps_of old removed)))
      c.npm s]
    by_cases h : PkgNode.npmId s ∈ reachSet (toGraph c) (surviving_deps_of old removed)
    · rw [if_pos (by simp [keepNpm, h]), if_pos h]
    · rw [if_neg (by simp [keepNpm, h]), if_neg h]
      rfl
  | jsrId s =>
    simp only [prune_content, nodeEntry]
    rw [lookupKey_filter (keepJsr (reachSet (toGraph c) (surviving_deps_of old removed)))
      c.jsr s]
    by_cases h : PkgNode.jsrId s ∈ reachSet (toGraph c) (surviving_deps_of old removed)
    · rw [if_pos (by simp [keepJsr, h]), if_pos h]
    · rw [if_neg (by simp [keepJsr, h]), if_neg h]
      rfl

theorem succsOf_prune_mono (c : LockfileContent) (old removed : List String) :
    ∀ n : PkgNode, ∀ m ∈ succsOf (toGraph (prune_content c old removed)) n,
      m ∈ succsOf (toGraph c) n := by
  apply succsOf_mono_of_lookup
  · intro k v hk
    rw [show (toGraph (prune_content c old removed)).npm
        = c.npm.filter (fun kv => keepNpm
            (reachSet (toGraph c) (surviving_deps_of old removed)) kv.1) from rfl] at hk
    rw [lookupKey_filter (keepNpm (reachSet (toGraph c) (surviving_deps_of old removed)))
      c.npm k] at hk
    split at hk
    · exact hk
    · exact absurd hk (by simp)
  · intro k v hk
    rw [show (toGraph (prune_content c old removed)).jsr
        = c.jsr.filter (fun kv => keepJsr
            (reachSet (toGraph c) (surviving_deps_of old removed)) kv.1) from rfl] at hk
    rw [lookupKey_filter (keepJsr (reachSet (toGraph c) (surviving_deps_of old removed)))
      c.jsr k] at hk
    split at hk
    · exact hk
    · exact absurd hk (by simp)
  · intro k v hk
    rw [show (toGraph (prune_content c old removed)).specifiers
        = c.specifiers.filter (fun kv => keepReq
            (reachSet (toGraph c) (surviving_deps_of old removed)) kv.1) from rfl] at hk
    rw [lookupKey_filter (keepReq (reachSet (toGraph c) (surviving_deps_of old removed)))
      c.specifiers k] at hk
    split at hk
    · exact hk
    · exact absurd hk (by simp)

/-- C2: when `set_workspace_config` drops requirement `A` but keeps
requirement `B`, a package `S` reachable from both is retained with its entry
unchanged (as is `B`'s specifier entry), every entry unreachable from the
surviving root set is removed, and a subsequent call dropping `B` as well
(with `S` reachable only through `A` and `B`) removes `S`. -/
theorem c2_shared_dependency_pruning
    (lf : Lockfile) (cfg1 cfg2 : WorkspaceConfigContent) (A B : String) (S : PkgNode)
    (hAold : A ∈ lf.content.workspace.get_all_dep_reqs)
    (hAnew : A ∉ cfg1.get_all_dep_reqs)
    (hBold : B ∈ lf.content.workspace.get_all_dep_reqs)
    (hBnew : B ∈ cfg1.get_all_dep_reqs)
    (hSA : S ∈ reachSet (toGraph lf.content) [A])
    (hSB : S ∈ reachSet (toGraph lf.content) [B]) :
    nodeEntry (lf.set_workspace_config cfg1).content S = nodeEntry lf.content S ∧
    lookupKey (lf.set_workspace_config cfg1).content.specifiers B
      = lookupKey lf.content.specifiers B ∧
    (∀ T : PkgNode,
      T ∉ reachSet (toGraph lf.content)
          (surviving_deps_of lf.content.workspace.get_all_dep_reqs
            (removed_deps_of lf.content.workspace.get_all_dep_reqs
              cfg1.get_all_dep_reqs)) →
      nodeEntry (lf.set_workspace_config cfg1).content T = none) ∧
    ((∀ d ∈ cfg1.get_all_dep_reqs, d ∈ lf.content.workspace.get_all_dep_reqs) →
      B ∉ cfg2.get_all_dep_reqs →
      ¬ Reaches (toGraph lf.content)
          (lf.content.workspace.get_all_dep_reqs.filter
            (fun d => decide (d ≠ A) && decide (d ≠ B))) S →
      nodeEntry ((lf.set_workspace_config cfg1).set_workspace_config cfg2).content S
        = none) := by
  have hcfg1 : lf.content.workspace ≠ cfg1 := by
    intro heq
    rw [heq] at hAold
    exact hAnew hAold
  have hArem : A ∈ removed_deps_of lf.content.workspace.get_all_dep_reqs
      cfg1.get_all_dep_reqs :=
    (mem_removed_iff _ _ _).mpr ⟨hAold, hAnew⟩
  have hrem1 : (removed_deps_of lf.content.workspace.get_all_dep_reqs
      cfg1.get_all_dep_reqs).isEmpty = false :=
    isEmpty_false_of_mem hArem
  have hlf1c := set_workspace_config_content_prune lf cfg1 hcfg1 hrem1
  have hg1 : toGraph { lf.content with workspace := cfg1 } = toGraph lf.content := rfl
  have hBsurv : B ∈ surviving_deps_of lf.content.workspace.get_all_dep_reqs
      (removed_deps_of lf.content.workspace.get_all_dep_reqs
        cfg1.get_all_dep_reqs) := by
    refine (mem_surviving_iff _ _ _).mpr ⟨hBold, fun hb => ?_⟩
    exact ((mem_removed_iff _ _ _).mp hb).2 hBnew
  have hS1 : S ∈ reachSet (toGraph lf.content)
      (surviving_deps_of lf.content.workspace.get_all_dep_reqs
        (removed_deps_of lf.content.workspace.get_all_dep_reqs
          cfg1.get_all_dep_reqs)) := by
    refine reachSet_mono_roots (toGraph lf.content) [B] _ ?_ ?_ S hSB
    · intro r hr
      rcases List.mem_singleton.mp hr with rfl
      exact hBsurv
    · simpa using List.length_pos_of_mem hBsurv
  have ha : nodeEntry (lf.set_workspace_config cfg1).content S
      = nodeEntry lf.content S := by
    rw [hlf1c, nodeEntry_prune, hg1, if_pos hS1]
    cases S <;> rfl
  have hreqB : PkgNode.req B ∈ reachSet (toGraph lf.content)
      (surviving_deps_of lf.content.workspace.get_all_dep_reqs
        (removed_deps_of lf.content.workspace.get_all_dep_reqs
          cfg1.get_all_dep_reqs)) :=
    subset_closeN (toGraph lf.content) _ _ (PkgNode.req B)
      (List.mem_map.mpr ⟨B, hBsurv, rfl⟩)
  have hbEntry : nodeEntry (lf.set_workspace_config cfg1).content (.req B)
      = nodeEntry lf.content (.req B) := by
    rw [hlf1c, nodeEntry_prune, hg1, if_pos hreqB]
    rfl
  have hb : lookupKey (lf.set_workspace_config cfg1).content.specifiers B
      = lookupKey lf.content.specifiers B := by
    have hinj : Function.Injective NodeEntry.spec := fun a b hab => by
      injection hab
    exact Option.map_injective hinj hbEntry
  have hc : ∀ T : PkgNode,
      T ∉ reachSet (toGraph lf.content)
          (surviving_deps_of lf.content.workspace.get_all_dep_reqs
            (removed_deps_of lf.content.workspace.get_all_dep_reqs
              cfg1.get_all_dep_reqs)) →
      nodeEntry (lf.set_workspace_config cfg1).content T = none := by
    intro T hT
    rw [hlf1c, nodeEntry_prune, hg1, if_neg hT]
  refine ⟨ha, hb, hc, ?_⟩
  intro hsub hB2 honly
  have hl1w : (lf.set_workspace_config cfg1).content.workspace = cfg1 := by
    rw [hlf1c]
    rfl
  have hcfg2 : (lf.set_workspace_config cfg1).content.workspace ≠ cfg2 := by
    rw [hl1w]
    intro heq
    rw [heq] at hBnew
    exact hB2 hBnew
  have hBrem2 : B ∈ removed_deps_of
      (lf.set_workspace_config cfg1).content.workspace.get_all_dep_reqs
      cfg2.get_all_dep_reqs := by
    rw [hl1w]
    exact (mem_removed_iff _ _ _).mpr ⟨hBnew, hB2⟩
  have hrem2 : (removed_deps_of
      (lf.set_workspace_config cfg1).content.workspace.get_all_dep_reqs
      cfg2.get_all_dep_reqs).isEmpty = false :=
    isEmpty_false_of_mem hBrem2
  have hlf2c := set_workspace_config_content_prune (lf.set_workspace_config cfg1)
    cfg2 hcfg2 hrem2
  have hg2 : toGraph { (lf.set_workspace_config cfg1).content with workspace := cfg2 }
      = toGraph (lf.set_workspace_config cfg1).content := rfl
  rw [hlf2c, nodeEntry_prune, hg2]
  refine if_neg ?_
  intro hmem
  have hr2 := reachSet_sound _ _ _ hmem
  have hmono : ∀ n : PkgNode,
      ∀ m ∈ succsOf (toGraph (lf.set_workspace_config cfg1).content) n,
        m ∈ succsOf (toGraph lf.content) n := by
    rw [hlf1c]
    intro n m hm
    exact succsOf_prune_mono { lf.content with workspace := cfg1 } _ _ n m hm
  have hr3 := reaches_mono_graph _ _ hmono hr2
  have hr4 : Reaches (toGraph lf.content)
      (lf.content.workspace.get_all_dep_reqs.filter
        (fun d => decide (d ≠ A) && decide (d ≠ B))) S := by
    refine reaches_mono_roots _ ?_ hr3
    intro d hd
    rw [hl1w] at hd
    obtain ⟨hdN1, hdnr⟩ := (mem_surviving_iff _ _ _).mp hd
    have hdN2 : d ∈ cfg2.get_all_dep_reqs := by
      by_contra hdn2
      exact hdnr ((mem_removed_iff _ _ _).mpr ⟨hdN1, hdn2⟩)
    refine List.mem_filter.mpr ⟨hsub d hdN1, ?_⟩
    have hdA : d ≠ A := fun hh => hAnew (hh ▸ hdN1)
    have hdB : d ≠ B := fun hh => hB2 (hh ▸ hdN2)
    simp [hdA, hdB]
  exact honly hr4

theorem c2_witness :
    nodeEntry (sampleLockfile.set_workspace_config sampleCfgB).content
        (PkgNode.jsrId "s@1.0.0")
      = nodeEntry sampleLockfile.content (PkgNode.jsrId "s@1.0.0") ∧
    nodeEntry (sampleLockfile.set_workspace_config sampleCfgB).content
        (PkgNode.jsrId "a@1.0.0") = none ∧
    nodeEntry ((sampleLockfile.set_workspace_config sampleCfgB).set_workspace_config
        sampleCfgNone).content (PkgNode.jsrId "s@1.0.0") = none := by
  have h := c2_shared_dependency_pruning sampleLockfile sampleCfgB sampleCfgNone
      "jsr:a@1" "jsr:b@1" (PkgNode.jsrId "s@1.0.0")
      (by decide) (by decide) (by decide) (by decide) (by decide) (by decide)
  refine ⟨h.1, h.2.2.1 _ (by decide), h.2.2.2 (by decide) (by decide) ?_⟩
  exact not_reaches_of_nil_roots _ (by decide) _
